import Mathlib

/-!
Verification development for the CLIQ browser-automation repository.

The development shallowly embeds the parts of the code that the spec talks
about: the element-acquisition engine of `src/contents/utils.ts`
(`ElementFinder.findElement`, `waitForElementWithMutationObserver`,
`findElementByText`, `fillInput`, `waitForNetworkIdle`), the step sequencer
of `AppointmentAutomation.start`, the continuous search loop of
`AppointmentSearchAutomation`, and the configuration update of `config.ts`.

Time is modelled in whole milliseconds.  A DOM environment is a family of
query oracles indexed by time: `document.querySelector` is an external
browser API, so its results are inputs of the model, while every decision
the TypeScript code takes on those results is transcribed faithfully.
-/

namespace Cliq

/-- Left-biased choice on `Option`, the shape of the source code pattern
"check the document first, then scan the iframes". -/
def oor : Option α → Option α → Option α
  | some a, _ => some a
  | none, b => b

@[simp] theorem oor_some (a : α) (b : Option α) : oor (some a) b = some a := rfl

@[simp] theorem oor_none (b : Option α) : oor none b = b := rfl

/-- First time `t ≤ n` (in milliseconds) at which the check `f` produces a
value, together with that value.  This is the discrete-event skeleton shared
by the mutation-observer watchers and the idle poller. -/
def firstHit (f : Nat → Option α) (n : Nat) : Option (α × Nat) :=
  (List.range (n + 1)).findSome? (fun t => (f t).map (fun a => (a, t)))

theorem firstHit_zero {f : Nat → Option α} {a : α} (n : Nat) (h : f 0 = some a) :
    firstHit f n = some (a, 0) := by
  unfold firstHit
  rw [List.range_succ_eq_map]
  simp [List.findSome?_cons, h]

theorem firstHit_exists {f : Nat → Option α} {n : Nat} {a : α} {t : Nat}
    (h : firstHit f n = some (a, t)) : t ≤ n ∧ f t = some a := by
  unfold firstHit at h
  obtain ⟨u, hu, hfu⟩ := List.exists_of_findSome?_eq_some h
  rcases hv : f u with _ | v
  · simp [hv] at hfu
  · simp [hv] at hfu
    obtain ⟨ha, ht⟩ := hfu
    subst ht
    refine ⟨?_, by simp [hv, ha]⟩
    exact Nat.lt_succ_iff.mp (List.mem_range.mp hu)

theorem firstHit_none {f : Nat → Option α} {n : Nat}
    (h : ∀ t, t ≤ n → f t = none) : firstHit f n = none := by
  unfold firstHit
  rw [List.findSome?_eq_none_iff]
  intro t ht
  have := h t (Nat.lt_succ_iff.mp (List.mem_range.mp ht))
  simp [this]

/-- Outcome of one promise: resolved with a payload at a time, or rejected
at a time. -/
inductive Settle (α : Type) where
  | resolved (a : α) (t : Nat)
  | rejected (t : Nat)
  deriving DecidableEq, Repr

/-- Time at which a promise settles. -/
def Settle.time : Settle α → Nat
  | .resolved _ t => t
  | .rejected t => t

/-- Race key: earlier settlement wins; at the same millisecond a resolution
is delivered before a rejection (all watchers share one timeout, so the
claims never depend on finer same-millisecond ordering). -/
def settleKey : Settle α → Nat
  | .resolved _ t => 2 * t
  | .rejected t => 2 * t + 1

/-- `Promise.race` over a non-empty list: the settlement with the least key;
ties keep the earliest promise in array order, matching the order in which
race subscribes to the promises. -/
def race1 (s : Settle α) : List (Settle α) → Settle α
  | [] => s
  | x :: rest => race1 (if settleKey x < settleKey s then x else s) rest

theorem race1_mem (s : Settle α) (l : List (Settle α)) :
    race1 s l = s ∨ race1 s l ∈ l := by
  induction l generalizing s with
  | nil => exact Or.inl rfl
  | cons x rest ih =>
    simp only [race1]
    split
    · rcases ih x with h | h
      · exact Or.inr (by simp [h])
      · exact Or.inr (by simp [h])
    · rcases ih s with h | h
      · exact Or.inl h
      · exact Or.inr (by simp [h])

theorem race1_le_head (s : Settle α) (l : List (Settle α)) :
    settleKey (race1 s l) ≤ settleKey s := by
  induction l generalizing s with
  | nil => exact Nat.le_refl _
  | cons x rest ih =>
    simp only [race1]
    split
    · next hlt => exact Nat.le_trans (ih _) (Nat.le_of_lt hlt)
    · exact ih _

theorem race1_le_mem (s : Settle α) (l : List (Settle α)) (x : Settle α)
    (hx : x ∈ l) : settleKey (race1 s l) ≤ settleKey x := by
  induction l generalizing s with
  | nil => cases hx
  | cons y rest ih =>
    simp only [race1]
    rcases List.mem_cons.mp hx with h | h
    · subst h
      split
      · exact race1_le_head _ _
      · next hge =>
        exact Nat.le_trans (race1_le_head _ _) (Nat.le_of_not_lt hge)
    · split
      · exact ih _ h
      · exact ih _ h

theorem race1_append_last (s : Settle α) (l : List (Settle α)) (z : Settle α)
    (h : settleKey (race1 s l) ≤ settleKey z) : race1 s (l ++ [z]) = race1 s l := by
  induction l generalizing s with
  | nil =>
    have h2 : ¬ settleKey z < settleKey s := Nat.not_lt.mpr h
    simp only [race1, List.nil_append]
    rw [if_neg h2]
  | cons x rest ih =>
    simp only [race1, List.cons_append] at h ⊢
    exact ih _ h

theorem race1_const (s : Settle α) (l : List (Settle α))
    (h : ∀ x ∈ l, x = s) : race1 s l = s := by
  induction l with
  | nil => rfl
  | cons x rest ih =>
    have hx : x = s := h x (List.mem_cons_self _ _)
    subst hx
    simp only [race1, if_neg (Nat.lt_irrefl _)]
    exact ih (fun y hy => h y (List.mem_cons_of_mem _ hy))

/-!
DOM environment and the element-acquisition engine
(`src/contents/utils.ts`, `ElementFinder`).
-/

/-- Prefix test on character lists. -/
def charsPrefix : List Char → List Char → Bool
  | [], _ => true
  | _ :: _, [] => false
  | c :: cs, d :: ds => c == d && charsPrefix cs ds

/-- Occurrence of `needle` inside `hay`, on character lists (an empty
needle occurs in every string, as for the JavaScript `includes`). -/
def charsContain (needle hay : List Char) : Bool :=
  match hay with
  | [] => needle.isEmpty
  | _ :: tl => charsPrefix needle hay || charsContain needle tl

/-- Substring containment, the semantics of the JavaScript
`String.prototype.includes` used by the source. -/
def strContains (hay needle : String) : Bool :=
  charsContain needle.data hay.data

/-- Lower-casing, the semantics of the JavaScript `toLowerCase` on the
ASCII inputs the configuration uses. -/
def lowerStr (s : String) : String :=
  ⟨s.data.map Char.toLower⟩

/-- Whitespace trimming from both ends, the semantics of the JavaScript
`String.prototype.trim`. -/
def trimStr (s : String) : String :=
  ⟨((s.data.dropWhile Char.isWhitespace).reverse.dropWhile
      Char.isWhitespace).reverse⟩

/-- DOM environment for one `findElement` call, as seen through the browser
APIs the code invokes.  `doc t sel` is `document.querySelector(sel)` at
millisecond `t`; `frames` lists the iframes in document order, each as its
own query oracle (a cross-origin frame, whose access throws and is caught
and skipped by the code, behaves exactly like a frame whose queries all
return `none`); `elemsOfType t ty` is `document.querySelectorAll(ty)` at
time `t`; `textOf` reads `textContent`; `mutations` lists the milliseconds
at which the mutation observers fire. -/
structure Env (α : Type) where
  doc : Nat → String → Option α
  frames : List (Nat → String → Option α)
  elemsOfType : Nat → String → List α
  textOf : α → String
  mutations : List Nat

/-- Scan the iframes in order, returning the first match
(`utils.ts` lines 54-67 and 97-112). -/
def scanFrames (env : Env α) (t : Nat) (sel : String) : Option α :=
  env.frames.findSome? (fun f => f t sel)

/-- Immediate synchronous check performed when
`waitForElementWithMutationObserver` is entered: the main document first
(line 46), then every accessible iframe (lines 54-67). -/
def immediateCheck (env : Env α) (sel : String) : Option α :=
  oor (env.doc 0 sel) (scanFrames env 0 sel)

/-- What the watcher for one selector can find at millisecond `t`:
at `t = 0` the immediate check; afterwards the mutation-observer callback
re-queries the main document (lines 73-82) and the 1000 ms fallback
interval re-queries the document and then the iframes (lines 85-113). -/
def watcherCheck (env : Env α) (sel : String) (t : Nat) : Option α :=
  if t = 0 then immediateCheck env sel
  else
    oor (if env.mutations.contains t then env.doc t sel else none)
        (if t % 1000 = 0 then oor (env.doc t sel) (scanFrames env t sel) else none)

/-- Settlement of `ElementFinder.waitForElementWithMutationObserver`:
the promise resolves at the first millisecond at which a check finds the
element, and otherwise rejects exactly when the `setTimeout` of lines
116-121 fires. -/
def watcherSettle (env : Env α) (sel : String) (timeout : Nat) : Settle α :=
  match firstHit (watcherCheck env sel) timeout with
  | some (e, t) => .resolved e t
  | none => .rejected timeout

/-- Text predicate of `ElementFinder.findElementByText`
(lines 144-145): trimmed, lower-cased `textContent` must contain the
lower-cased target text. -/
def textMatches (env : Env α) (textContent : String) (el : α) : Bool :=
  strContains (lowerStr (trimStr (env.textOf el))) (lowerStr textContent)

/-- What `findElementByText` can find at millisecond `t`: the immediate
scan at entry (lines 143-150), then a re-scan on every mutation-observer
callback (lines 154-164); it has no fallback interval and never looks at
iframes. -/
def textCheck (env : Env α) (elementType textContent : String) (t : Nat) : Option α :=
  if t = 0 then (env.elemsOfType 0 elementType).find? (textMatches env textContent)
  else if env.mutations.contains t then
    (env.elemsOfType t elementType).find? (textMatches env textContent)
  else none

/-- Settlement of `ElementFinder.findElementByText`: first find wins,
otherwise the timeout of lines 167-170 rejects. -/
def textSettle (env : Env α) (elementType textContent : String) (timeout : Nat) : Settle α :=
  match firstHit (textCheck env elementType textContent) timeout with
  | some (e, t) => .resolved e t
  | none => .rejected timeout

/-- Settlement of `ElementFinder.findElement` (lines 17-35): one watcher
per candidate selector, in array order, plus a find-by-visible-text watcher
on `"button"` and the first selector, all raced; the first settlement wins
(`Promise.race`, line 30). -/
def findElementSettle (env : Env α) (sels : List String) (timeout : Nat) : Settle α :=
  match sels with
  | [] => textSettle env "button" "" timeout
  | s0 :: rest =>
    race1 (watcherSettle env s0 timeout)
      (rest.map (fun s => watcherSettle env s timeout) ++
        [textSettle env "button" s0 timeout])

/-- Whether the observer, fallback interval and timeout timer of the
watcher for `sel` are still alive at millisecond `t`.  They are created
only when the immediate check fails (in which case the settle time is
positive) and the code releases all three exactly when the watcher itself
settles: on its own success (lines 76-78, 88-90, 102-104) or on its own
timeout (lines 116-118). -/
def watcherActive (env : Env α) (sel : String) (timeout : Nat) (t : Nat) : Bool :=
  decide (t < (watcherSettle env sel timeout).time)

theorem watcherSettle_of_doc0 (env : Env α) (sel : String) (timeout : Nat)
    {e : α} (hdoc : env.doc 0 sel = some e) :
    watcherSettle env sel timeout = .resolved e 0 := by
  have hc : watcherCheck env sel 0 = some e := by
    simp [watcherCheck, immediateCheck, hdoc]
  rw [watcherSettle, firstHit_zero timeout hc]

theorem watcherSettle_resolved0 {env : Env α} {sel : String} {timeout : Nat}
    {e : α} (h : watcherSettle env sel timeout = .resolved e 0) :
    immediateCheck env sel = some e := by
  rw [watcherSettle] at h
  rcases hf : firstHit (watcherCheck env sel) timeout with _ | ⟨a, t⟩
  · rw [hf] at h; cases h
  · rw [hf] at h
    cases h
    have := (firstHit_exists hf).2
    simpa [watcherCheck] using this

theorem watcherSettle_time_le (env : Env α) (sel : String) (timeout : Nat) :
    (watcherSettle env sel timeout).time ≤ timeout := by
  rw [watcherSettle]
  rcases hf : firstHit (watcherCheck env sel) timeout with _ | ⟨a, t⟩
  · exact Nat.le_refl _
  · exact (firstHit_exists hf).1

/-- C1. When some candidate selector already matches an element of the
main document at call time, `ElementFinder.findElement` settles at
millisecond 0 — without waiting for any mutation, poll tick or timeout —
and it resolves with an element produced by the immediate synchronous
check of one of the candidate selectors (so a matching element present at
call time, found well before the timeout elapses). -/
theorem findElement_resolves_immediately (env : Env α) (sels : List String)
    (timeout : Nat) (sel : String) (e : α)
    (hmem : sel ∈ sels) (hdoc : env.doc 0 sel = some e) :
    ∃ s2 ∈ sels, ∃ e2, immediateCheck env s2 = some e2 ∧
      findElementSettle env sels timeout = .resolved e2 0 := by
  cases sels with
  | nil => cases hmem
  | cons s0 rest =>
    have hW : watcherSettle env sel timeout = .resolved e 0 :=
      watcherSettle_of_doc0 env sel timeout hdoc
    have hkeyW : settleKey (watcherSettle env sel timeout) = 0 := by
      rw [hW]; rfl
    have hle : settleKey (race1 (watcherSettle env s0 timeout)
        (rest.map (fun s => watcherSettle env s timeout))) ≤ 0 := by
      rcases List.mem_cons.mp hmem with h | h
      · subst h
        calc settleKey (race1 (watcherSettle env sel timeout)
              (rest.map (fun s => watcherSettle env s timeout)))
            ≤ settleKey (watcherSettle env sel timeout) := race1_le_head _ _
          _ = 0 := hkeyW
      · have hmm : watcherSettle env sel timeout ∈
            rest.map (fun s => watcherSettle env s timeout) :=
          List.mem_map_of_mem _ h
        calc settleKey (race1 (watcherSettle env s0 timeout)
              (rest.map (fun s => watcherSettle env s timeout)))
            ≤ settleKey (watcherSettle env sel timeout) := race1_le_mem _ _ _ hmm
          _ = 0 := hkeyW
    have hdrop : race1 (watcherSettle env s0 timeout)
        (rest.map (fun s => watcherSettle env s timeout) ++
          [textSettle env "button" s0 timeout]) =
        race1 (watcherSettle env s0 timeout)
          (rest.map (fun s => watcherSettle env s timeout)) :=
      race1_append_last _ _ _ (Nat.le_trans hle (Nat.zero_le _))
    have hkey0 : settleKey (race1 (watcherSettle env s0 timeout)
        (rest.map (fun s => watcherSettle env s timeout))) = 0 :=
      Nat.le_antisymm hle (Nat.zero_le _)
    obtain ⟨s2, hs2, hw⟩ : ∃ s2 ∈ s0 :: rest,
        race1 (watcherSettle env s0 timeout)
          (rest.map (fun s => watcherSettle env s timeout)) =
        watcherSettle env s2 timeout := by
      rcases race1_mem (watcherSettle env s0 timeout)
          (rest.map (fun s => watcherSettle env s timeout)) with h | h
      · exact ⟨s0, List.mem_cons_self _ _, h⟩
      · obtain ⟨s2, hs2, hfs2⟩ := List.mem_map.mp h
        exact ⟨s2, List.mem_cons_of_mem _ hs2, hfs2.symm⟩
    rcases hwv : watcherSettle env s2 timeout with ⟨a, t⟩ | t
    · have ht : t = 0 := by
        rw [hw, hwv] at hkey0
        simp only [settleKey] at hkey0
        omega
      subst ht
      have himm : immediateCheck env s2 = some a := watcherSettle_resolved0 hwv
      refine ⟨s2, hs2, a, himm, ?_⟩
      show race1 (watcherSettle env s0 timeout)
          (rest.map (fun s => watcherSettle env s timeout) ++
            [textSettle env "button" s0 timeout]) = .resolved a 0
      rw [hdrop, hw, hwv]
    · rw [hw, hwv] at hkey0
      simp [settleKey] at hkey0

theorem watcherSettle_rejected (env : Env α) (sel : String) (timeout : Nat)
    (h1 : ∀ t, t ≤ timeout → env.doc t sel = none)
    (h2 : ∀ t, t ≤ timeout → scanFrames env t sel = none) :
    watcherSettle env sel timeout = .rejected timeout := by
  rw [watcherSettle, firstHit_none]
  intro t ht
  by_cases h0 : t = 0
  · subst h0
    simp [watcherCheck, immediateCheck, h1 0 (Nat.zero_le _), h2 0 (Nat.zero_le _)]
  · simp [watcherCheck, h0, h1 t ht, h2 t ht, oor]

theorem textSettle_rejected (env : Env α) (ty txt : String) (timeout : Nat)
    (h : ∀ t, t ≤ timeout → (env.elemsOfType t ty).find? (textMatches env txt) = none) :
    textSettle env ty txt timeout = .rejected timeout := by
  rw [textSettle, firstHit_none]
  intro t ht
  by_cases h0 : t = 0
  · subst h0; simp [textCheck, h 0 (Nat.zero_le _)]
  · simp [textCheck, h0, h t ht]

/-- C2. When no candidate selector matches anywhere (main document or
iframes) at any millisecond up to the deadline, and the visible-text
fallback never matches either, `ElementFinder.findElement` rejects with
the not-found error, and the rejection happens exactly when the timeout
duration has elapsed — at the timeout, never before it. -/
theorem findElement_rejects_at_timeout (env : Env α) (sels : List String)
    (timeout : Nat)
    (hdoc : ∀ t, t ≤ timeout → ∀ sel ∈ sels, env.doc t sel = none)
    (hframes : ∀ t, t ≤ timeout → ∀ sel ∈ sels, scanFrames env t sel = none)
    (htext : ∀ t, t ≤ timeout →
      (env.elemsOfType t "button").find? (textMatches env (sels.headD "")) = none) :
    findElementSettle env sels timeout = .rejected timeout := by
  cases sels with
  | nil =>
    exact textSettle_rejected env "button" "" timeout (by simpa using htext)
  | cons s0 rest =>
    have hall : ∀ sel ∈ s0 :: rest,
        watcherSettle env sel timeout = .rejected timeout := fun sel hmem =>
      watcherSettle_rejected env sel timeout
        (fun t ht => hdoc t ht sel hmem) (fun t ht => hframes t ht sel hmem)
    have htxt : textSettle env "button" s0 timeout = .rejected timeout :=
      textSettle_rejected env "button" s0 timeout (by simpa using htext)
    show race1 (watcherSettle env s0 timeout)
        (rest.map (fun s => watcherSettle env s timeout) ++
          [textSettle env "button" s0 timeout]) = .rejected timeout
    rw [hall s0 (List.mem_cons_self _ _)]
    apply race1_const
    intro x hx
    rcases List.mem_append.mp hx with h | h
    · obtain ⟨s, hs, rfl⟩ := List.mem_map.mp h
      exact hall s (List.mem_cons_of_mem _ hs)
    · rw [List.mem_singleton.mp h]
      exact htxt

/-- Demonstration environment for C1: the selector `"#submit"` matches
element `7` in the main document at every time; nothing else matches. -/
def demoEnv : Env Nat where
  doc := fun _ sel => if sel = "#submit" then some 7 else none
  frames := []
  elemsOfType := fun _ _ => []
  textOf := fun _ => ""
  mutations := []

/-- Witness for C1 at a concrete input: one selector that matches at call
time makes `findElement` resolve at millisecond 0. -/
theorem findElement_resolves_immediately_witness :
    ∃ s2 ∈ ["#submit"], ∃ e2, immediateCheck demoEnv s2 = some e2 ∧
      findElementSettle demoEnv ["#submit"] 1000 = .resolved e2 0 :=
  findElement_resolves_immediately demoEnv ["#submit"] 1000 "#submit" 7
    (List.mem_singleton.mpr rfl) (by decide)

/-- Demonstration environment for C2: nothing ever matches anything. -/
def emptyEnv : Env Nat where
  doc := fun _ _ => none
  frames := []
  elemsOfType := fun _ _ => []
  textOf := fun _ => ""
  mutations := []

/-- Witness for C2 at a concrete input: with no match ever, `findElement`
rejects exactly at the 3 ms timeout. -/
theorem findElement_rejects_at_timeout_witness :
    findElementSettle emptyEnv ["#submit"] 3 = .rejected 3 :=
  findElement_rejects_at_timeout emptyEnv ["#submit"] 3
    (fun _ _ _ _ => rfl) (fun _ _ _ _ => rfl) (fun _ _ => rfl)

/-- Environment for C4: selector `"#a"` matches element `1` immediately,
selector `"#b"` never matches. -/
def raceEnv : Env Nat where
  doc := fun _ sel => if sel = "#a" then some 1 else none
  frames := []
  elemsOfType := fun _ _ => []
  textOf := fun _ => ""
  mutations := []

/-- C4 counterexample. The claim says that when one watcher wins the race
the losing watchers are cancelled at that moment, so that no watcher of
the call remains active after the call settles.  In this concrete run
`findElement(["#a", "#b"], 5)` settles at millisecond 0 (selector `"#a"`
matches immediately), yet the losing watcher for `"#b"` still has its
observer and timers alive at milliseconds 1 and 4 — `Promise.race` (line
30 of `utils.ts`) never cancels the losing promises, which only release
their observer and timers when their own timeout fires. -/
theorem findElement_loser_still_active :
    findElementSettle raceEnv ["#a", "#b"] 5 = .resolved 1 0 ∧
    watcherActive raceEnv "#b" 5 1 = true ∧
    watcherActive raceEnv "#b" 5 4 = true := by
  refine ⟨?_, ?_, ?_⟩ <;> decide

/-- C4 amended. Losing watchers are not cancelled when the race settles:
each watcher releases its own observer, fallback interval and timeout
timer only when it itself settles — on its own success or its own timeout.
Consequently every watcher of a `findElement` call is inactive from the
call's shared timeout onward, though it may remain active between the
moment the call settles and that timeout. -/
theorem watcher_released_by_own_timeout (env : Env α) (sels : List String)
    (timeout : Nat) (sel : String) (_hmem : sel ∈ sels) (t : Nat)
    (ht : timeout ≤ t) : watcherActive env sel timeout t = false := by
  rw [watcherActive, decide_eq_false_iff_not]
  exact Nat.not_lt.mpr (Nat.le_trans (watcherSettle_time_le env sel timeout) ht)

/-- Witness for the amended C4 at a concrete input: after the shared 5 ms
timeout the losing watcher for `"#b"` is no longer active. -/
theorem watcher_released_by_own_timeout_witness :
    watcherActive raceEnv "#b" 5 7 = false :=
  watcher_released_by_own_timeout raceEnv ["#a", "#b"] 5 "#b" (by decide) 7
    (by omega)

/-!
`ElementFinder.waitForNetworkIdle` (`utils.ts` lines 260-324): patch the
global request primitives, poll for idleness, restore on either exit path.
-/

/-- Value of a global network primitive: either some original browser
function (identified by a tag) or a monitoring wrapper installed around an
inner value by the patching step. -/
inductive NetFun where
  | orig (id : Nat)
  | patched (inner : NetFun)
  deriving DecidableEq, Repr

/-- The two patched globals, `XMLHttpRequest.prototype.open` and
`window.fetch`. -/
structure NetGlobals where
  xhrOpen : NetFun
  fetch : NetFun
  deriving DecidableEq, Repr

/-- Network activity as observed by the instrumentation: the in-flight
request counter and the last-activity timestamp at each millisecond. -/
structure NetEnv where
  reqCount : Nat → Nat
  lastActivity : Nat → Nat

/-- Idle test of `checkIdle` (lines 299-312): no request in flight and
more than 500 ms since the last activity. -/
def idleAt (netEnv : NetEnv) (t : Nat) : Bool :=
  netEnv.reqCount t == 0 && decide (500 < t - netEnv.lastActivity t)

/-- The two ways the call can finish: the 100 ms poll observes idleness,
or the absolute `setTimeout` fires (lines 317-322). -/
inductive IdleExit where
  | viaIdleCheck (t : Nat)
  | viaTimeout
  deriving DecidableEq, Repr

/-- Which exit path runs first: the earliest 100 ms poll tick at which the
network is idle, if one occurs no later than the absolute timeout,
otherwise the absolute timeout. -/
def idleExit (netEnv : NetEnv) (timeout : Nat) : IdleExit :=
  match firstHit
      (fun t => if t % 100 = 0 && t != 0 && idleAt netEnv t then some () else none)
      timeout with
  | some (_, t) => .viaIdleCheck t
  | none => .viaTimeout

/-- Patching step at entry (lines 270-297): both globals are replaced by
monitoring wrappers. -/
def patchNet (g : NetGlobals) : NetGlobals :=
  ⟨.patched g.xhrOpen, .patched g.fetch⟩

/-- Result of one `waitForNetworkIdle` call: when it settles, what the two
globals hold at that moment, and whether the promise was rejected. -/
structure IdleRun where
  resolveTime : Nat
  globalsAtResolve : NetGlobals
  rejectedFlag : Bool
  deriving DecidableEq, Repr

/-- One full run of `waitForNetworkIdle`.  The originals are saved at
entry (lines 266-267), the globals are patched (lines 270-297), and each
of the two exit paths restores both saved originals before calling
`resolve` — the idle path at lines 306-309, the timeout path at lines
319-321.  The executor never calls `reject`. -/
def waitForNetworkIdleRun (g : NetGlobals) (netEnv : NetEnv) (timeout : Nat) :
    IdleRun :=
  let originalXHROpen := g.xhrOpen
  let originalFetch := g.fetch
  let duringCall := patchNet g
  match idleExit netEnv timeout with
  | .viaIdleCheck t =>
    ⟨t, { duringCall with xhrOpen := originalXHROpen, fetch := originalFetch },
      false⟩
  | .viaTimeout =>
    ⟨timeout,
      { duringCall with xhrOpen := originalXHROpen, fetch := originalFetch },
      false⟩

/-- C3. For every entry state of the globals, every network trace and
every timeout, `waitForNetworkIdle` resolves (never rejects) no later than
the absolute timeout, and at the moment it resolves both
`XMLHttpRequest.prototype.open` and `window.fetch` hold exactly the values
they held at call entry: the patch-and-restore round trip is the identity
on both exit paths. -/
theorem waitForNetworkIdle_restores (g : NetGlobals) (netEnv : NetEnv)
    (timeout : Nat) :
    (waitForNetworkIdleRun g netEnv timeout).globalsAtResolve = g ∧
    (waitForNetworkIdleRun g netEnv timeout).rejectedFlag = false ∧
    (waitForNetworkIdleRun g netEnv timeout).resolveTime ≤ timeout := by
  rw [waitForNetworkIdleRun]
  rcases hx : idleExit netEnv timeout with t | _
  · refine ⟨rfl, rfl, ?_⟩
    rw [idleExit] at hx
    rcases hf : firstHit
        (fun t => if t % 100 = 0 && t != 0 && idleAt netEnv t then some () else none)
        timeout with _ | ⟨u, t2⟩
    · rw [hf] at hx; cases hx
    · rw [hf] at hx
      cases hx
      exact (firstHit_exists hf).1
  · exact ⟨rfl, rfl, Nat.le_refl _⟩

/-!
`ElementFinder.fillInput` (`utils.ts` lines 187-214): locate the element,
then interact with it according to its kind.
-/

/-- One entry of an `HTMLSelectElement.options` collection. -/
structure SelectOption where
  text : String
  value : String
  deriving DecidableEq, Repr

/-- Kinds of form control `fillInput` distinguishes, with the mutable
state each carries. -/
inductive FormControl where
  | checkbox (checked : Bool)
  | select (options : List SelectOption) (value : String)
  | textInput (value : String)
  | textArea (value : String)
  | other
  deriving DecidableEq, Repr

/-- DOM events `fillInput` can dispatch. -/
inductive FieldEvent where
  | input
  | change
  | clickEv
  deriving DecidableEq, Repr

/-- Dropdown match test (lines 195-198): the option whose text or value
contains the target value, case-insensitively. -/
def optionMatches (value : String) (opt : SelectOption) : Bool :=
  strContains (lowerStr opt.text) (lowerStr value) ||
    strContains (lowerStr opt.value) (lowerStr value)

/-- Interaction step of `fillInput` on the located element (lines
191-211): checkbox → click only if unchecked; select → first matching
option is assigned and a change event dispatched, and when no option
matches nothing at all happens; text inputs and textareas → value set,
input and change dispatched; anything else → untouched.  Returns the
element after the interaction together with the dispatched events. -/
def applyFill : FormControl → String → FormControl × List FieldEvent
  | .checkbox checked, _ =>
    if !checked then (.checkbox true, [.clickEv]) else (.checkbox checked, [])
  | .select opts v, value =>
    match opts.find? (optionMatches value) with
    | some opt => (.select opts opt.value, [.change])
    | none => (.select opts v, [])
  | .textInput _, value => (.textInput value, [.input, .change])
  | .textArea _, value => (.textArea value, [.input, .change])
  | .other, _ => (.other, [])

/-- Whole `fillInput` call: locate the element through `findElement`
(line 188), then run the interaction step on it; a location failure
propagates as the rejection of the same promise. -/
def fillInputRun (env : Env FormControl) (fieldSelectors : List String)
    (value : String) (timeout : Nat) : Settle (FormControl × List FieldEvent) :=
  match findElementSettle env fieldSelectors timeout with
  | .resolved ctl t => .resolved (applyFill ctl value) t
  | .rejected t => .rejected t

/-- C5. When `fillInput` locates a select element none of whose options
matches the target value (case-insensitive substring on text and value),
the call leaves the select completely unchanged, dispatches no event,
raises no error, and still resolves — with the located element itself. -/
theorem fillInput_select_no_match (env : Env FormControl)
    (fieldSelectors : List String) (value : String) (timeout t : Nat)
    (opts : List SelectOption) (v : String)
    (hfound : findElementSettle env fieldSelectors timeout =
      .resolved (.select opts v) t)
    (hnone : ∀ opt ∈ opts, optionMatches value opt = false) :
    fillInputRun env fieldSelectors value timeout =
      .resolved (.select opts v, []) t := by
  rw [fillInputRun, hfound]
  have hfind : opts.find? (optionMatches value) = none := by
    rw [List.find?_eq_none]
    intro opt hmem
    simp [hnone opt hmem]
  simp [applyFill, hfind]

/-- Concrete select control for the C5 witness: two options, initial
value empty. -/
def monthSelect : FormControl :=
  .select [⟨"Morning", "1"⟩, ⟨"Afternoon", "2"⟩] ""

/-- Environment for the C5 witness: the selector `"#month"` locates the
select control immediately. -/
def selectEnv : Env FormControl where
  doc := fun _ sel => if sel = "#month" then some monthSelect else none
  frames := []
  elemsOfType := fun _ _ => []
  textOf := fun _ => ""
  mutations := []

/-- Witness for C5 at a concrete input: target value `"evening"` matches
no option of the located dropdown, so the control is returned unchanged
with no event dispatched. -/
theorem fillInput_select_no_match_witness :
    fillInputRun selectEnv ["#month"] "evening" 4 =
      .resolved (.select [⟨"Morning", "1"⟩, ⟨"Afternoon", "2"⟩] "", []) 0 :=
  fillInput_select_no_match selectEnv ["#month"] "evening" 4 0
    [⟨"Morning", "1"⟩, ⟨"Afternoon", "2"⟩] "" (by decide) (by decide)

/-!
Step sequencer: `AppointmentAutomation.start` runs a fixed array of
asynchronous steps with a `for` loop, awaiting each, and catches at the
top level only, logging the failing step index.
-/

/-- Result of running the step array: the state after the last step that
ran, the indices of the steps that were invoked in execution order, and,
on failure, the recorded failing index together with the logged error. -/
structure SeqResult (σ ε : Type) where
  finalState : σ
  invoked : List Nat
  failure : Option (Nat × ε)
  deriving DecidableEq, Repr

/-- The sequencer loop starting at step index `i`: each step either
produces the state for the next step or throws, in which case the loop
stops at once with `currentStep` still holding the failing index. -/
def runSeqAux (i : Nat) (s : σ) : List (σ → Except ε σ) → SeqResult σ ε
  | [] => ⟨s, [], none⟩
  | step :: rest =>
    match step s with
    | .ok s2 =>
      let r := runSeqAux (i + 1) s2 rest
      ⟨r.finalState, i :: r.invoked, r.failure⟩
    | .error e => ⟨s, [i], some (i, e)⟩

/-- `AppointmentAutomation.start` (content script, lines 494-512): run the
fixed step array from index 0; any throw halts the whole sequence and is
caught once at the top, where the failing step index is logged. -/
def runSequence (steps : List (σ → Except ε σ)) (s : σ) : SeqResult σ ε :=
  runSeqAux 0 s steps

/-- Shift of the starting index: running from `i + 1` is running from `i`
with every recorded index shifted by one. -/
theorem runSeqAux_succ (steps : List (σ → Except ε σ)) (i : Nat) (s : σ) :
    runSeqAux (i + 1) s steps =
      ⟨(runSeqAux i s steps).finalState,
        (runSeqAux i s steps).invoked.map (· + 1),
        (runSeqAux i s steps).failure.map (fun p => (p.1 + 1, p.2))⟩ := by
  induction steps generalizing i s with
  | nil => rfl
  | cons step rest ih =>
    simp only [runSeqAux]
    cases hs : step s with
    | ok s2 =>
      dsimp only
      rw [ih (i + 1) s2, ih i s2]
      simp [List.map_map, Option.map_map, Function.comp]
    | error e2 => simp

/-- State reached after the first `i` steps when they all succeed; `none`
when some earlier step fails or there are fewer than `i` steps. -/
def prefixState (s : σ) : List (σ → Except ε σ) → Nat → Option σ
  | _, 0 => some s
  | [], _ + 1 => none
  | step :: rest, i + 1 =>
    match step s with
    | .ok s2 => prefixState s2 rest i
    | .error _ => none

/-- C6. When the first `i` steps succeed, producing state `si`, and step
`i` throws error `e`, the sequencer invokes exactly the steps
`0, 1, …, i`, in that order and each exactly once — so every later step
of the array is never invoked and the failing step is not retried — and
it stops with the failing index `i` recorded, the error `e` logged, and
the effects of the earlier steps kept (the final state is `si`, with no
rollback). -/
theorem runSequence_halts_at_first_failure (steps : List (σ → Except ε σ))
    (s si : σ) (i : Nat) (f : σ → Except ε σ) (e : ε)
    (hpre : prefixState s steps i = some si)
    (hstep : steps[i]? = some f)
    (hfail : f si = .error e) :
    runSequence steps s = ⟨si, List.range (i + 1), some (i, e)⟩ := by
  induction i generalizing steps s with
  | zero =>
    cases steps with
    | nil => simp at hstep
    | cons step rest =>
      simp only [List.getElem?_cons_zero, Option.some.injEq] at hstep
      subst hstep
      cases hpre
      simp [runSequence, runSeqAux, hfail, List.range_succ]
  | succ i ih =>
    cases steps with
    | nil => simp at hstep
    | cons step rest =>
      simp only [List.getElem?_cons_succ] at hstep
      simp only [prefixState] at hpre
      cases hs : step s with
      | ok s2 =>
        rw [hs] at hpre
        simp only at hpre
        have hrest : runSequence rest s2 = ⟨si, List.range (i + 1), some (i, e)⟩ :=
          ih rest s2 hpre hstep
        simp only [runSequence, runSeqAux, hs]
        rw [runSeqAux_succ]
        simp only [runSequence] at hrest
        rw [hrest]
        simp [List.range_succ_eq_map, Nat.succ_eq_add_one]
      | error e2 => simp [hs] at hpre

/-- Concrete step array for the C6 witness: the second step throws. -/
def demoSteps : List (Nat → Except String Nat) :=
  [fun n => .ok (n + 1), fun _ => .error "boom", fun n => .ok (n + 10)]

/-- Witness for C6 at a concrete input: steps 0 and 1 run in order, the
third step never runs, index 1 and the error are recorded, and the effect
of step 0 is kept. -/
theorem runSequence_halts_at_first_failure_witness :
    runSequence demoSteps 0 = ⟨1, [0, 1], some (1, "boom")⟩ :=
  runSequence_halts_at_first_failure demoSteps 0 1 1
    (fun _ => .error "boom") "boom" rfl rfl rfl

/-!
Continuous search loop: `AppointmentSearchAutomation` of the appointment
search content script (`searchForAppointment`, `startContinuousSearch`,
`stopContinuousSearch`).
-/

/-- The `searchBehavior` section of `AUTOMATION_CONFIG` (`config.ts`
lines 19-28). -/
structure SearchBehavior where
  searchInterval : Nat
  maxSearchAttempts : Nat
  playSoundOnFound : Bool
  stopOnFound : Bool
  deriving DecidableEq, Repr

/-- Instance state of `AppointmentSearchAutomation` (lines 201-203 of the
module): the interval handle, the attempt counter and the running flag. -/
structure SearchState where
  searchInterval : Option Nat
  searchAttempts : Nat
  isSearching : Bool
  deriving DecidableEq, Repr

/-- State of a freshly constructed `AppointmentSearchAutomation`. -/
def initialSearchState : SearchState := ⟨none, 0, false⟩

/-- `stopContinuousSearch` (lines 400-413): when no search is running it
only warns; otherwise it clears the interval handle and resets the
running flag.  The attempt counter is never touched. -/
def stopContinuousSearch (s : SearchState) : SearchState × List String :=
  if !s.isSearching then (s, ["No continuous search is running"])
  else ({ s with searchInterval := none, isSearching := false }, [])

/-- `startContinuousSearch` (lines 374-395): when a search is already
running it only warns and creates no timer; otherwise it sets the running
flag and installs the interval timer `tid`.  The last component reports
whether a timer was created. -/
def startContinuousSearch (s : SearchState) (tid : Nat) :
    SearchState × List String × Bool :=
  if s.isSearching then (s, ["Continuous search is already running"], false)
  else ({ s with isSearching := true, searchInterval := some tid }, [], true)

/-- `searchForAppointment` (lines 294-332): the attempt counter is
incremented first; the DOM outcome of the attempt is the input `found`
(every thrown error is caught and reported as `false`); on success the
loop is stopped when `stopOnFound` is configured.  Returns the new state
and whether an appointment was found. -/
def searchForAppointment (cfg : SearchBehavior) (s : SearchState)
    (found : Bool) : SearchState × Bool :=
  let s1 := { s with searchAttempts := s.searchAttempts + 1 }
  if found then
    (if cfg.stopOnFound then (stopContinuousSearch s1).1 else s1, true)
  else (s1, false)

/-- One tick of the interval callback installed by `startContinuousSearch`
(lines 383-394): if a positive max-attempts cap is already reached, stop
the loop and clear the timer without searching; otherwise perform one
search attempt.  The second component reports whether a search was
performed. -/
def searchTick (cfg : SearchBehavior) (s : SearchState) (found : Bool) :
    SearchState × Bool :=
  if 0 < cfg.maxSearchAttempts ∧ cfg.maxSearchAttempts ≤ s.searchAttempts then
    ((stopContinuousSearch s).1, false)
  else ((searchForAppointment cfg s found).1, true)

/-- The `n`-th scheduled slot of the interval timer: the tick callback
runs only while the timer is installed; once the interval is cleared no
further callback runs.  `founds n` is the DOM outcome of the attempt made
at slot `n`. -/
def loopSlot (cfg : SearchBehavior) (founds : Nat → Bool) (n : Nat)
    (s : SearchState) : SearchState :=
  if s.searchInterval.isSome then (searchTick cfg s (founds n)).1 else s

/-- State of the search automation after the first `n` scheduled timer
slots. -/
def runLoop (cfg : SearchBehavior) (founds : Nat → Bool) (s : SearchState) :
    Nat → SearchState
  | 0 => s
  | n + 1 => loopSlot cfg founds n (runLoop cfg founds s n)

/-- Number of interval callbacks that actually fire during the first `n`
scheduled slots. -/
def ticksFired (cfg : SearchBehavior) (founds : Nat → Bool) (s : SearchState) :
    Nat → Nat
  | 0 => 0
  | n + 1 =>
    ticksFired cfg founds s n +
      (if (runLoop cfg founds s n).searchInterval.isSome then 1 else 0)

/-- C7. Calling `startContinuousSearch` while a search loop is already
running only emits the warning: the state is returned unchanged and no
second interval timer is created.  Symmetrically, calling
`stopContinuousSearch` when no loop is running only emits the warning and
changes no state. -/
theorem continuousSearch_start_stop_noop (s1 s2 : SearchState) (tid : Nat)
    (h1 : s1.isSearching = true) (h2 : s2.isSearching = false) :
    startContinuousSearch s1 tid =
      (s1, ["Continuous search is already running"], false) ∧
    stopContinuousSearch s2 = (s2, ["No continuous search is running"]) := by
  constructor
  · rw [startContinuousSearch, if_pos h1]
  · rw [stopContinuousSearch, if_pos (by rw [h2]; rfl)]

/-- Witness for C7 at concrete inputs: a running instance ignores a second
start, an idle instance ignores a stop. -/
theorem continuousSearch_start_stop_noop_witness :
    startContinuousSearch ⟨some 5, 2, true⟩ 9 =
      (⟨some 5, 2, true⟩, ["Continuous search is already running"], false) ∧
    stopContinuousSearch ⟨none, 2, false⟩ =
      (⟨none, 2, false⟩, ["No continuous search is running"]) :=
  continuousSearch_start_stop_noop ⟨some 5, 2, true⟩ ⟨none, 2, false⟩ 9 rfl rfl

/-- Entry state of the continuous loop in the production flow
(`AppointmentSearchAutomation.start`, lines 213-245): the initial search
attempt runs first — incrementing the counter to 1 — and then
`startContinuousSearch` installs the timer. -/
def loopStart (cfg : SearchBehavior) (tid : Nat) : SearchState :=
  (startContinuousSearch
    (searchForAppointment cfg initialSearchState false).1 tid).1

theorem loopStart_eq (cfg : SearchBehavior) (tid : Nat) :
    loopStart cfg tid = ⟨some tid, 1, true⟩ := by
  rfl

/-- After the loop has stopped (interval cleared) no slot changes the
state any more. -/
theorem runLoop_stopped (cfg : SearchBehavior) (founds : Nat → Bool)
    (s : SearchState) (m : Nat)
    (hstop : (runLoop cfg founds s m).searchInterval = none) (n : Nat)
    (hmn : m ≤ n) : runLoop cfg founds s n = runLoop cfg founds s m := by
  induction n with
  | zero => cases Nat.le_zero.mp hmn; rfl
  | succ n ih =>
    rcases Nat.lt_or_ge m (n + 1) with hlt | hge
    · have hn : m ≤ n := Nat.lt_succ_iff.mp hlt
      have heq := ih hn
      show loopSlot cfg founds n (runLoop cfg founds s n) = _
      rw [heq, loopSlot, if_neg (by rw [hstop]; simp)]
    · cases Nat.le_antisymm hmn hge; rfl

/-- C8. In the production flow with `maxSearchAttempts = 3` and every
search attempt reporting no appointment: the initial attempt of `start`
brings the counter to 1, the first and second timer ticks perform the
second and third attempts, and the third tick finds the cap reached, so
it transitions the loop to stopped and clears the interval timer without
searching.  The timer is live entering the third tick, gone after it, at
most three callbacks ever fire, and the counter never goes past 3 — so a
fourth tick, and a fourth search attempt, never happen. -/
theorem continuousSearch_stops_at_third_tick (cfg : SearchBehavior)
    (tid : Nat) (founds : Nat → Bool)
    (hmax : cfg.maxSearchAttempts = 3) (hf : ∀ n, founds n = false) :
    runLoop cfg founds (loopStart cfg tid) 2 = ⟨some tid, 3, true⟩ ∧
    runLoop cfg founds (loopStart cfg tid) 3 = ⟨none, 3, false⟩ ∧
    (∀ n, 3 ≤ n → runLoop cfg founds (loopStart cfg tid) n = ⟨none, 3, false⟩) ∧
    (∀ n, ticksFired cfg founds (loopStart cfg tid) n ≤ 3) := by
  have h2 : runLoop cfg founds (loopStart cfg tid) 2 = ⟨some tid, 3, true⟩ := by
    show loopSlot cfg founds 1 (loopSlot cfg founds 0 (loopStart cfg tid)) = _
    rw [loopStart_eq]
    simp [loopSlot, searchTick, searchForAppointment, stopContinuousSearch,
      hmax, hf]
  have h3 : runLoop cfg founds (loopStart cfg tid) 3 = ⟨none, 3, false⟩ := by
    show loopSlot cfg founds 2 (runLoop cfg founds (loopStart cfg tid) 2) = _
    rw [h2]
    simp [loopSlot, searchTick, searchForAppointment, stopContinuousSearch,
      hmax, hf]
  have hge : ∀ n, 3 ≤ n →
      runLoop cfg founds (loopStart cfg tid) n = ⟨none, 3, false⟩ := by
    intro n hn
    rw [runLoop_stopped cfg founds (loopStart cfg tid) 3 (by rw [h3]) n hn, h3]
  refine ⟨h2, h3, hge, ?_⟩
  intro n
  rcases Nat.lt_or_ge n 4 with hlt | hge4
  · have : ticksFired cfg founds (loopStart cfg tid) n ≤ n := by
      clear hlt
      induction n with
      | zero => exact Nat.le_refl _
      | succ n ih =>
        show ticksFired cfg founds (loopStart cfg tid) n +
          (if _ then 1 else 0) ≤ n + 1
        split
        · exact Nat.add_le_add ih (Nat.le_refl 1)
        · exact Nat.le_succ_of_le (Nat.le_trans ih (Nat.le_refl n))
    omega
  · have h0 : runLoop cfg founds (loopStart cfg tid) 0 = ⟨some tid, 1, true⟩ := by
      show loopStart cfg tid = _
      exact loopStart_eq cfg tid
    have h1 : runLoop cfg founds (loopStart cfg tid) 1 = ⟨some tid, 2, true⟩ := by
      show loopSlot cfg founds 0 (runLoop cfg founds (loopStart cfg tid) 0) = _
      rw [h0]
      simp [loopSlot, searchTick, searchForAppointment, stopContinuousSearch,
        hmax, hf]
    have key : ∀ k, ticksFired cfg founds (loopStart cfg tid) (4 + k) =
        ticksFired cfg founds (loopStart cfg tid) 4 := by
      intro k
      induction k with
      | zero => rfl
      | succ k ih =>
        show ticksFired cfg founds (loopStart cfg tid) (4 + k) +
          (if (runLoop cfg founds (loopStart cfg tid)
              (4 + k)).searchInterval.isSome then 1 else 0) = _
        rw [ih, hge (4 + k) (by omega)]
        simp
    have h4 : ticksFired cfg founds (loopStart cfg tid) 4 = 3 := by
      have e1 : ticksFired cfg founds (loopStart cfg tid) 1 =
          ticksFired cfg founds (loopStart cfg tid) 0 +
            (if (runLoop cfg founds (loopStart cfg tid)
                0).searchInterval.isSome then 1 else 0) := rfl
      have e2 : ticksFired cfg founds (loopStart cfg tid) 2 =
          ticksFired cfg founds (loopStart cfg tid) 1 +
            (if (runLoop cfg founds (loopStart cfg tid)
                1).searchInterval.isSome then 1 else 0) := rfl
      have e3 : ticksFired cfg founds (loopStart cfg tid) 3 =
          ticksFired cfg founds (loopStart cfg tid) 2 +
            (if (runLoop cfg founds (loopStart cfg tid)
                2).searchInterval.isSome then 1 else 0) := rfl
      have e4 : ticksFired cfg founds (loopStart cfg tid) 4 =
          ticksFired cfg founds (loopStart cfg tid) 3 +
            (if (runLoop cfg founds (loopStart cfg tid)
                3).searchInterval.isSome then 1 else 0) := rfl
      rw [e4, e3, e2, e1, h0, h1, h2, h3]
      simp [ticksFired]
    obtain ⟨k, rfl⟩ : ∃ k, n = 4 + k := ⟨n - 4, by omega⟩
    rw [key k, h4]

/-- Witness for C8 at a concrete input: cap 3, timer id 0, every attempt
failing. -/
theorem continuousSearch_stops_at_third_tick_witness :
    runLoop ⟨30000, 3, true, false⟩ (fun _ => false)
        (loopStart ⟨30000, 3, true, false⟩ 0) 2 = ⟨some 0, 3, true⟩ ∧
    runLoop ⟨30000, 3, true, false⟩ (fun _ => false)
        (loopStart ⟨30000, 3, true, false⟩ 0) 3 = ⟨none, 3, false⟩ ∧
    (∀ n, 3 ≤ n → runLoop ⟨30000, 3, true, false⟩ (fun _ => false)
        (loopStart ⟨30000, 3, true, false⟩ 0) n = ⟨none, 3, false⟩) ∧
    (∀ n, ticksFired ⟨30000, 3, true, false⟩ (fun _ => false)
        (loopStart ⟨30000, 3, true, false⟩ 0) n ≤ 3) :=
  continuousSearch_stops_at_third_tick ⟨30000, 3, true, false⟩ 0
    (fun _ => false) rfl (fun _ => rfl)

/-- C10. The attempt counter of an `AppointmentSearchAutomation` instance
only ever grows: one search attempt increments it by exactly one, start,
stop and a cap-reached tick leave it unchanged, and no operation resets
it.  Hence restarting the loop after a stop keeps the cumulative count,
and when a positive cap is already reached the restarted loop's first
tick stops it again — clearing the timer, performing no new search and
leaving the counter where it was. -/
theorem searchAttempts_monotone_never_reset (cfg : SearchBehavior)
    (sAny s : SearchState) (tid : Nat) (found : Bool)
    (hidle : s.isSearching = false) (hpos : 0 < cfg.maxSearchAttempts)
    (hcap : cfg.maxSearchAttempts ≤ s.searchAttempts) :
    (searchForAppointment cfg sAny found).1.searchAttempts =
      sAny.searchAttempts + 1 ∧
    (startContinuousSearch sAny tid).1.searchAttempts = sAny.searchAttempts ∧
    (stopContinuousSearch sAny).1.searchAttempts = sAny.searchAttempts ∧
    sAny.searchAttempts ≤ (searchTick cfg sAny found).1.searchAttempts ∧
    searchTick cfg (startContinuousSearch s tid).1 found =
      (⟨none, s.searchAttempts, false⟩, false) := by
  refine ⟨?_, ?_, ?_, ?_, ?_⟩
  · rw [searchForAppointment]
    split
    · split
      · simp [stopContinuousSearch]
        split <;> simp
      · rfl
    · rfl
  · rw [startContinuousSearch]; split <;> rfl
  · rw [stopContinuousSearch]; split <;> rfl
  · rw [searchTick]
    split
    · simp [stopContinuousSearch]
      split <;> simp
    · rw [searchForAppointment]
      split
      · split
        · simp [stopContinuousSearch]
          split <;> simp
        · simp
      · simp
  · have hstart : (startContinuousSearch s tid).1 =
        { s with isSearching := true, searchInterval := some tid } := by
      rw [startContinuousSearch, if_neg (by rw [hidle]; simp)]
    rw [searchTick, hstart]
    rw [if_pos ⟨hpos, hcap⟩]
    rw [stopContinuousSearch]
    simp

/-- Witness for C10 at a concrete input: an idle instance that already
made 3 attempts under cap 3, restarted with timer id 4, stops again on the
first tick without searching. -/
theorem searchAttempts_monotone_never_reset_witness :
    (searchForAppointment ⟨30000, 3, true, false⟩ ⟨some 7, 5, true⟩
      true).1.searchAttempts = 5 + 1 ∧
    (startContinuousSearch ⟨some 7, 5, true⟩ 4).1.searchAttempts = 5 ∧
    (stopContinuousSearch ⟨some 7, 5, true⟩).1.searchAttempts = 5 ∧
    (5 : Nat) ≤ (searchTick ⟨30000, 3, true, false⟩ ⟨some 7, 5, true⟩
      true).1.searchAttempts ∧
    searchTick ⟨30000, 3, true, false⟩
        (startContinuousSearch ⟨none, 3, false⟩ 4).1 true =
      (⟨none, 3, false⟩, false) :=
  searchAttempts_monotone_never_reset ⟨30000, 3, true, false⟩
    ⟨some 7, 5, true⟩ ⟨none, 3, false⟩ 4 true rfl (by decide) (by decide)

/-!
Configuration update: `updateConfig` of `config.ts` (lines 221-223) is
`Object.assign(AUTOMATION_CONFIG, newConfig)` — a shallow merge of the
top-level keys.
-/

/-- The `appointmentData` section of `AUTOMATION_CONFIG` (`config.ts`
lines 7-16). -/
structure AppointmentData where
  firstName : String
  lastName : String
  healthInsuranceNumber : String
  sequentialNumber : String
  dateOfBirth : String
  postalCode : String
  searchRadius : String
  reason : String
  deriving DecidableEq, Repr

/-- The `selectors` section of `AUTOMATION_CONFIG` (lines 31-211): four
groups of named SelectorSets, each name paired with its ordered fallback
list of selector strings. -/
structure Selectors where
  formFields : List (String × List String)
  buttons : List (String × List String)
  appointmentResults : List (String × List String)
  errorMessages : List (String × List String)
  deriving DecidableEq, Repr

/-- The `timeouts` section of `AUTOMATION_CONFIG` (lines 214-217). -/
structure Timeouts where
  elementWait : Nat
  pageTransition : Nat
  deriving DecidableEq, Repr

/-- The whole `AUTOMATION_CONFIG` object: four top-level keys. -/
structure AutomationConfig where
  appointmentData : AppointmentData
  searchBehavior : SearchBehavior
  selectors : Selectors
  timeouts : Timeouts
  deriving DecidableEq, Repr

/-- A runtime value of type `Partial<typeof AUTOMATION_CONFIG>`: any
subset of the top-level keys, each carrying a whole replacement object for
its section. -/
structure ConfigPatch where
  appointmentData : Option AppointmentData := none
  searchBehavior : Option SearchBehavior := none
  selectors : Option Selectors := none
  timeouts : Option Timeouts := none
  deriving DecidableEq, Repr

/-- `updateConfig` (`config.ts` lines 221-223), which
`AutomationController.updateConfig` forwards to: the semantics of
`Object.assign(AUTOMATION_CONFIG, newConfig)` on the typed record — every
own key of the patch overwrites the corresponding top-level property
wholesale, every other property is untouched. -/
def updateConfig (c : AutomationConfig) (p : ConfigPatch) : AutomationConfig :=
  { appointmentData := p.appointmentData.getD c.appointmentData
    searchBehavior := p.searchBehavior.getD c.searchBehavior
    selectors := p.selectors.getD c.selectors
    timeouts := p.timeouts.getD c.timeouts }

/-- C9. The configuration update is a shallow merge.  For every current
config and every patch: a top-level key present in the patch (here
`searchBehavior`) is replaced wholesale, so every nested field of the new
section comes from the patch object and any nested value of the old
section not restated there is lost; a top-level key absent from the patch
(here `timeouts`) is left completely unchanged; and in general each
section of the result is the patch section when present and the old
section otherwise. -/
theorem updateConfig_shallow_merge (c : AutomationConfig) (p : ConfigPatch)
    (sb : SearchBehavior) (hsb : p.searchBehavior = some sb)
    (htm : p.timeouts = none) :
    (updateConfig c p).searchBehavior = sb ∧
    (updateConfig c p).searchBehavior.searchInterval = sb.searchInterval ∧
    (updateConfig c p).searchBehavior.maxSearchAttempts =
      sb.maxSearchAttempts ∧
    (updateConfig c p).timeouts = c.timeouts ∧
    (updateConfig c p).appointmentData =
      p.appointmentData.getD c.appointmentData ∧
    (updateConfig c p).selectors = p.selectors.getD c.selectors := by
  rw [updateConfig]
  simp [hsb, htm]

/-- Current configuration for the C9 witness, with the shipped
`appointmentData`, `searchBehavior` and `timeouts` values of `config.ts`
and one representative SelectorSet per selector group. -/
def demoConfig : AutomationConfig where
  appointmentData :=
    ⟨"charbel", "tannous", "TANC03013017", "03", "2003-01-30", "H4n1c7",
      "25", "Consultation"⟩
  searchBehavior := ⟨30000, 0, true, false⟩
  selectors :=
    ⟨[("firstName", ["#ctl00_ContentPlaceHolderMP_AssureForm_FirstName"])],
      [("continue", ["#ctl00_ContentPlaceHolderMP_myButton"])],
      [("resultsContainer", [".results-container"])],
      [("anyError", [".alert:visible"])]⟩
  timeouts := ⟨30000, 5000⟩

/-- Witness for C9 at a concrete input: patching only `searchBehavior`
replaces that section wholesale — the old 30000 ms interval is lost even
though the patch only meant to change the cap — and leaves the other
three sections untouched. -/
theorem updateConfig_shallow_merge_witness :
    (updateConfig demoConfig
        ⟨none, some ⟨60000, 5, false, true⟩, none, none⟩).searchBehavior =
      ⟨60000, 5, false, true⟩ ∧
    (updateConfig demoConfig
        ⟨none, some ⟨60000, 5, false, true⟩, none,
          none⟩).searchBehavior.searchInterval = 60000 ∧
    (updateConfig demoConfig
        ⟨none, some ⟨60000, 5, false, true⟩, none,
          none⟩).searchBehavior.maxSearchAttempts = 5 ∧
    (updateConfig demoConfig
        ⟨none, some ⟨60000, 5, false, true⟩, none, none⟩).timeouts =
      demoConfig.timeouts ∧
    (updateConfig demoConfig
        ⟨none, some ⟨60000, 5, false, true⟩, none, none⟩).appointmentData =
      (Option.getD none demoConfig.appointmentData) ∧
    (updateConfig demoConfig
        ⟨none, some ⟨60000, 5, false, true⟩, none, none⟩).selectors =
      (Option.getD none demoConfig.selectors) :=
  updateConfig_shallow_merge demoConfig
    ⟨none, some ⟨60000, 5, false, true⟩, none, none⟩
    ⟨60000, 5, false, true⟩ rfl rfl

end Cliq
